import Mathlib

/-!
Verification of the core of the Distributed_KVstore repository: a two-peer,
eventually-consistent, last-writer-wins key-value store with a Merkle-tree
anti-entropy subsystem.

The embedding below translates the C++ sources into Lean:

* src/kv_store.hpp          — KeyValueStore (timestamped LWW store)
* src/node.hpp              — Node::process_command (wire-protocol dispatcher)
                              and the foreground replication path
* src/anti_entropy/merkle_tree_index.hpp   — MerkleTreeIndex (the live,
                              header-inline implementation included by every
                              translation unit)
* src/anti_entropy/merkle_tree_index.cpp   — a stale out-of-line variant whose
                              find_differences differs from the header; it is
                              embedded separately for comparison
* src/anti_entropy/anti_entropy_manager.hpp — step 4 of the Merkle
                              anti-entropy cycle (candidate key set)

The merklecpp library (src/merklecpp/merklecpp.h) is referenced by the sources
but is not part of the provided tree; the pieces of it that the claims touch
(Hash, sha256_compress, Tree root/path, Path serialization) are modelled from
the specification, as marked on each definition.

Machine integers are modelled as Nat with explicit reduction modulo 2^32 where
the C++ computes on uint32_t. Bytes are Nat values below 256. Strings are
treated as their character sequences; the protocol traffic of this program is
ASCII, where one character is one byte.
-/

namespace DKV

/-- A byte, as a natural number (values below 256 in all reachable states). -/
abbrev Byte := Nat

/-- A 32-byte digest, as its byte list.  Modelled from the spec:
merklecpp's HashT of 32 bytes is absent from src/. -/
abbrev Hash := List Byte

/-- Modelled from the spec: merklecpp's default-constructed Hash, the all-zero
32-byte digest that the code uses as the empty sentinel. -/
def zeroHash : Hash := List.replicate 32 0

/-- Reduce modulo 2^32 (uint32_t arithmetic). -/
def w32 (x : Nat) : Nat := x % 4294967296

/-- Rotate a 32-bit word right by n bits (input assumed below 2^32). -/
def rotr (n x : Nat) : Nat := (x % 2 ^ n) * 2 ^ (32 - n) + x / 2 ^ n

/-- SHA-256 message schedule sigma-0. -/
def ssig0 (x : Nat) : Nat := (rotr 7 x) ^^^ (rotr 18 x) ^^^ (x >>> 3)

/-- SHA-256 message schedule sigma-1. -/
def ssig1 (x : Nat) : Nat := (rotr 17 x) ^^^ (rotr 19 x) ^^^ (x >>> 10)

/-- SHA-256 round function Sigma-0. -/
def bsig0 (x : Nat) : Nat := (rotr 2 x) ^^^ (rotr 13 x) ^^^ (rotr 22 x)

/-- SHA-256 round function Sigma-1. -/
def bsig1 (x : Nat) : Nat := (rotr 6 x) ^^^ (rotr 11 x) ^^^ (rotr 25 x)

/-- SHA-256 choice function. -/
def shaCh (e f g : Nat) : Nat := (e &&& f) ^^^ ((e ^^^ 4294967295) &&& g)

/-- SHA-256 majority function. -/
def shaMaj (a b c : Nat) : Nat := (a &&& b) ^^^ (a &&& c) ^^^ (b &&& c)

/-- The 64 SHA-256 round constants (FIPS 180-4, written in decimal). -/
def shaK : List Nat :=
  [1116352408, 1899447441, 3049323471, 3921009573, 961987163,
   1508970993, 2453635748, 2870763221, 3624381080, 310598401,
   607225278, 1426881987, 1925078388, 2162078206, 2614888103,
   3248222580, 3835390401, 4022224774, 264347078, 604807628,
   770255983, 1249150122, 1555081692, 1996064986, 2554220882,
   2821834349, 2952996808, 3210313671, 3336571891, 3584528711,
   113926993, 338241895, 666307205, 773529912, 1294757372,
   1396182291, 1695183700, 1986661051, 2177026350, 2456956037,
   2730485921, 2820302411, 3259730800, 3345764771, 3516065817,
   3600352804, 4094571909, 275423344, 430227734, 506948616,
   659060556, 883997877, 958139571, 1322822218, 1537002063,
   1747873779, 1955562222, 2024104815, 2227730452, 2361852424,
   2428436474, 2756734187, 3204031479, 3329325298]

/-- The SHA-256 initial hash state (FIPS 180-4, written in decimal). -/
def shaH0 : List Nat :=
  [1779033703, 3144134277, 1013904242, 2773480762,
   1359893119, 2600822924, 528734635, 1541459225]

/-- Group a byte list into big-endian 32-bit words. -/
def bytesToWords : List Byte → List Nat
  | a :: b :: c :: d :: rest => (((a * 256 + b) * 256 + c) * 256 + d) :: bytesToWords rest
  | _ => []

/-- One step of the SHA-256 message-schedule extension: append word
w[t] = ssig1 w[t-2] + w[t-7] + ssig0 w[t-15] + w[t-16]. -/
def extendOnce (w : List Nat) : List Nat :=
  w ++ [w32 (ssig1 (w.getD (w.length - 2) 0) + w.getD (w.length - 7) 0 +
             ssig0 (w.getD (w.length - 15) 0) + w.getD (w.length - 16) 0)]

/-- The full 64-word SHA-256 message schedule from the 16 input words. -/
def schedule (w16 : List Nat) : List Nat := extendOnce^[48] w16

/-- One SHA-256 round on the eight working variables. -/
def shaRound (kw : Nat × Nat) (st : List Nat) : List Nat :=
  match st with
  | [a, b, c, d, e, f, g, h] =>
    let t1 := w32 (h + bsig1 e + shaCh e f g + kw.1 + kw.2)
    let t2 := w32 (bsig0 a + shaMaj a b c)
    [w32 (t1 + t2), a, b, c, w32 (d + t1), e, f, g]
  | other => other

/-- A 32-bit word as four big-endian bytes. -/
def wordBytes (w : Nat) : List Byte :=
  [w / 16777216 % 256, w / 65536 % 256, w / 256 % 256, w % 256]

/-- Modelled from the spec: merklecpp's sha256_compress, absent from src/.
The generic sha-256 two-block compression function applied to the 64-byte
block formed by the two 32-byte inputs, starting from the standard initial
state. -/
def sha256_compress (l r : Hash) : Hash :=
  let w := schedule (bytesToWords (l ++ r))
  let fin := (shaK.zip w).foldl (fun st kw => shaRound kw st) shaH0
  (((shaH0.zip fin).map (fun p => w32 (p.1 + p.2))).map wordBytes).flatten

/-- The bytes of a string: its character sequence (code point per character;
the protocol traffic of this program is ASCII, where this is the byte). -/
def strBytes (s : String) : List Byte := s.data.map Char.toNat

/-- memcpy of the first n bytes of src over the front of dest
(merkle_tree_index.hpp line 100). -/
def writeBytes (dest src : List Byte) (n : Nat) : List Byte :=
  src.take n ++ dest.drop n

/-- MerkleTreeIndex::hash_key_value (merkle_tree_index.hpp lines 91-106):
form key + ":" + value + ":" + decimal timestamp, memcpy its first
min(length, 32) bytes over a default (zero) 32-byte Hash, and compress that
buffer with a zero right half. -/
def hash_key_value (key value : String) (timestamp : Nat) : Hash :=
  let combined := strBytes (key ++ ":" ++ value ++ ":" ++ toString timestamp)
  let left := writeBytes zeroHash combined (min combined.length 32)
  sha256_compress left zeroHash

/-- The leaf buffer as the spec words it: the first 32 bytes of the combined
string, zero-padded on the right if shorter. -/
def leafBufferSpec (bytes : List Byte) : List Byte :=
  if bytes.length < 32 then bytes ++ List.replicate (32 - bytes.length) 0
  else bytes.take 32

/-- The leaf hash as the spec words it: compress the padded buffer together
with a zero-valued right half. -/
def leafHashSpec (key value : String) (timestamp : Nat) : Hash :=
  sha256_compress
    (leafBufferSpec (strBytes (key ++ ":" ++ value ++ ":" ++ toString timestamp)))
    zeroHash

theorem writeBytes_zeroHash_eq_leafBufferSpec (src : List Byte) :
    writeBytes zeroHash src (min src.length 32) = leafBufferSpec src := by
  unfold writeBytes leafBufferSpec zeroHash
  rcases lt_or_ge src.length 32 with h | h
  · rw [if_pos h, min_eq_left (le_of_lt h), List.take_length, List.drop_replicate]
  · rw [if_neg (not_lt.mpr h), min_eq_right h, List.drop_replicate]
    simp

/-- C7: for every key, value and timestamp, the leaf hash is computed by
forming the byte string k ++ ":" ++ v ++ ":" ++ decimal(t), copying its first
32 bytes into a 32-byte buffer zero-padded on the right if shorter, and
compressing that buffer together with a zero-valued right half using the
sha-256 compression function. -/
theorem leaf_hash_matches_spec_construction (key value : String) (timestamp : Nat) :
    hash_key_value key value timestamp = leafHashSpec key value timestamp := by
  show sha256_compress
      (writeBytes zeroHash (strBytes (key ++ ":" ++ value ++ ":" ++ toString timestamp))
        (min (strBytes (key ++ ":" ++ value ++ ":" ++ toString timestamp)).length 32))
      zeroHash = _
  rw [writeBytes_zeroHash_eq_leafBufferSpec]
  rfl

/-!
## The Merkle tree

merklecpp's Tree is absent from src/; the spec describes it as a balanced
binary tree over the leaf sequence whose internal nodes are
compress(left_child, right_child), with the library's policy for an odd leaf
count.  The model below folds each level pairwise and carries an unpaired
last node up unchanged.
-/

/-- Modelled from the spec: one level of the Merkle fold.  Adjacent pairs are
compressed; an unpaired last node is carried up unchanged. -/
def levelUp : List Hash → List Hash
  | a :: b :: rest => sha256_compress a b :: levelUp rest
  | l => l

theorem length_levelUp_le (l : List Hash) : (levelUp l).length ≤ l.length := by
  match l with
  | [] => simp [levelUp]
  | [h] => simp [levelUp]
  | a :: b :: rest =>
    have ih := length_levelUp_le rest
    simp only [levelUp, List.length_cons]
    omega

/-- Modelled from the spec: the root of the leaf sequence, the fold of the
levels; the zero hash for the empty tree (merkle::Tree::root is only called
on nonempty trees by this code, where the fold applies). -/
def rootOfLeaves (l : List Hash) : Hash :=
  match l with
  | [] => zeroHash
  | [h] => h
  | a :: b :: rest => rootOfLeaves (sha256_compress a b :: levelUp rest)
termination_by l.length
decreasing_by
  simp only [List.length_cons]
  have := length_levelUp_le rest
  omega

/-- Modelled from the spec: the ordered sibling hashes from a leaf position
to the root. At each level the node at position i has the node at i+1 (i
even) or i-1 (i odd) as its sibling, when that position exists. -/
def siblingsAt (l : List Hash) (i : Nat) : List Hash :=
  match l with
  | [] => []
  | [_] => []
  | a :: b :: rest =>
    let here := a :: b :: rest
    let sib := if i % 2 == 0 then here.get? (i + 1) else here.get? (i - 1)
    (match sib with
     | some s => [s]
     | none => []) ++ siblingsAt (sha256_compress a b :: levelUp rest) (i / 2)
termination_by l.length
decreasing_by
  simp only [List.length_cons]
  have := length_levelUp_le rest
  omega

/-- Modelled from the spec: merklecpp's Path, absent from src/ — the leaf
hash, its leaf position (the side information needed to recompute the root),
and the sibling hashes from leaf to root. -/
structure MerklePath where
  leaf : Hash
  leafIndex : Nat
  siblings : List Hash
deriving DecidableEq

/-- The authentication path of the leaf at position i. -/
def pathAt (leaves : List Hash) (i : Nat) : MerklePath :=
  { leaf := leaves.getD i zeroHash, leafIndex := i, siblings := siblingsAt leaves i }

/-- Recompute a root from a leaf, its position and its sibling hashes,
compressing left or right by the parity of the position at each level. -/
def recomputeRoot (leaf : Hash) (idx : Nat) : List Hash → Hash
  | [] => leaf
  | s :: rest =>
    recomputeRoot (if idx % 2 == 0 then sha256_compress leaf s else sha256_compress s leaf)
      (idx / 2) rest

/-- Modelled from the spec: merkle::Path::verify — the path reconstructs to
the given root. -/
def MerklePath.verify (p : MerklePath) (root : Hash) : Bool :=
  recomputeRoot p.leaf p.leafIndex p.siblings == root

/-- Modelled from the spec: merklecpp's Path serialization, a fixed byte
stream determined by the path (leaf bytes, 8-byte big-endian leaf index,
sibling bytes). -/
def serializePath (p : MerklePath) : List Byte :=
  p.leaf ++ (List.range 8).map (fun j => p.leafIndex / 256 ^ (7 - j) % 256) ++
    p.siblings.flatten

/-!
## MerkleTreeIndex (src/anti_entropy/merkle_tree_index.hpp)

rebuild discards the previous tree and KeyIndex and rebuilds both from the
snapshot it is handed, so the whole index state is determined by that
snapshot: the model carries the insertion-ordered entry list.
-/

/-- The state of a MerkleTreeIndex: the (key, value, timestamp) entries in
the insertion order of the rebuild that produced it
(merkle_tree_index.hpp lines 16-32). -/
structure MerkleTreeIndex where
  entries : List (String × String × Nat)
deriving DecidableEq

/-- MerkleTreeIndex::rebuild (merkle_tree_index.hpp lines 16-32): clear the
tree and KeyIndex and insert one leaf per snapshot entry in order. -/
def MerkleTreeIndex.rebuild (kv_data : List (String × String × Nat)) : MerkleTreeIndex :=
  { entries := kv_data }

/-- The leaf sequence of the tree: hash_key_value of each entry, in
insertion order. -/
def MerkleTreeIndex.leaves (st : MerkleTreeIndex) : List Hash :=
  st.entries.map (fun e => hash_key_value e.1 e.2.1 e.2.2)

/-- The KeyIndex: the leaf position assigned to a key during the rebuild
(sequential positions 0..N-1 in insertion order). -/
def MerkleTreeIndex.keyToIndex (st : MerkleTreeIndex) (key : String) : Option Nat :=
  st.entries.findIdx? (fun e => e.1 == key)

/-- MerkleTreeIndex::get_root_hash (merkle_tree_index.hpp lines 34-37):
the default (zero) Hash if the tree is empty, else the tree root. -/
def MerkleTreeIndex.get_root_hash (st : MerkleTreeIndex) : Hash :=
  if st.leaves.isEmpty then zeroHash else rootOfLeaves st.leaves

/-- MerkleTreeIndex::find_differences (merkle_tree_index.hpp lines 39-54,
the live, header-inline implementation): when the tree is nonempty, walk the
(remote path, key) pairs up to the shorter of the two lists and collect each
key whose path fails to verify against the local root; when the tree is
empty, the guard skips the walk and the empty list is returned. -/
def MerkleTreeIndex.find_differences (st : MerkleTreeIndex)
    (remote_paths : List MerklePath) (keys : List String) : List String :=
  if st.leaves.isEmpty then []
  else
    (remote_paths.zip keys).filterMap
      (fun pk => if pk.1.verify (rootOfLeaves st.leaves) then none else some pk.2)

/-- MerkleTreeIndex::find_differences as written in the stale out-of-line
file (merkle_tree_index.cpp lines 41-68): the empty tree returns every
queried key ("If our tree is empty, all keys differ"); the nonempty case
walks the remote paths and collects the key of each failing path that has
one. -/
def findDifferencesCpp (st : MerkleTreeIndex)
    (remote_paths : List MerklePath) (keys : List String) : List String :=
  if st.leaves.isEmpty then keys
  else
    (remote_paths.zip keys).filterMap
      (fun pk => if pk.1.verify (rootOfLeaves st.leaves) then none else some pk.2)

/-- MerkleTreeIndex::get_paths (merkle_tree_index.hpp lines 56-69): nothing
for an empty tree; otherwise, for each requested key in input order, the
path of its KeyIndex position if the key is known, and nothing for unknown
keys. -/
def MerkleTreeIndex.get_paths (st : MerkleTreeIndex) (keys : List String) :
    List MerklePath :=
  if st.leaves.isEmpty then []
  else keys.filterMap (fun k => (st.keyToIndex k).map (pathAt st.leaves))

/-!
## KeyValueStore (src/kv_store.hpp)

The C++ store is an unordered_map from key to ValueWithTimestamp.  The model
is an association list with at most one entry per key: assigning an existing
key replaces the record in place, a new key is appended (the map's iteration
order is unspecified; the list order stands for one stable iteration order).
-/

/-- KeyValueStore::ValueWithTimestamp (kv_store.hpp lines 15-18). -/
structure ValueWithTimestamp where
  value : String
  timestamp : Nat
deriving DecidableEq

/-- The store contents: key to record, at most one entry per key. -/
abbrev Store := List (String × ValueWithTimestamp)

/-- store_.find(key): the record stored under the key, if any. -/
def storeFind (st : Store) (key : String) : Option ValueWithTimestamp :=
  (st.find? (fun e => e.1 == key)).map Prod.snd

/-- store_[key] = record: overwrite the entry in place if the key is
present, append a fresh entry otherwise (unordered_map assignment). -/
def storeAssign (st : Store) (key : String) (v : ValueWithTimestamp) : Store :=
  match st with
  | [] => [(key, v)]
  | e :: rest => if e.1 == key then (key, v) :: rest else e :: storeAssign rest key v

/-- KeyValueStore::get (kv_store.hpp lines 20-24): the stored value, or the
empty string when the key is absent. -/
def KeyValueStore.get (st : Store) (key : String) : String :=
  ((storeFind st key).map ValueWithTimestamp.value).getD ""

/-- KeyValueStore::set (kv_store.hpp lines 26-37), the store side: accepted
(and the record assigned) iff the key is absent or the timestamp is greater
than or equal to the stored record's; rejected otherwise.  Returns the new
contents and the accepted flag. -/
def KeyValueStore.set (st : Store) (key value : String) (timestamp : Nat) :
    Store × Bool :=
  match storeFind st key with
  | none => (storeAssign st key ⟨value, timestamp⟩, true)
  | some cur =>
    if timestamp ≥ cur.timestamp then (storeAssign st key ⟨value, timestamp⟩, true)
    else (st, false)

/-- KeyValueStore::del (kv_store.hpp lines 39-50), the store side: accepted
(and the record erased) iff the key is present and the timestamp is greater
than or equal to the stored record's. -/
def KeyValueStore.del (st : Store) (key : String) (timestamp : Nat) :
    Store × Bool :=
  match storeFind st key with
  | some cur =>
    if timestamp ≥ cur.timestamp then (st.filter (fun e => !(e.1 == key)), true)
    else (st, false)
  | none => (st, false)

/-- KeyValueStore::get_all_keys_with_timestamps (kv_store.hpp lines 102-109). -/
def get_all_keys_with_timestamps (st : Store) : List (String × Nat) :=
  st.map (fun e => (e.1, e.2.timestamp))

/-- KeyValueStore::get_all_key_value_data (kv_store.hpp lines 63-72): the
snapshot handed to the index rebuild. -/
def get_all_key_value_data (st : Store) : List (String × String × Nat) :=
  st.map (fun e => (e.1, e.2.value, e.2.timestamp))

theorem storeFind_cons (e : String × ValueWithTimestamp) (rest : Store)
    (key : String) :
    storeFind (e :: rest) key =
      if e.1 == key then some e.2 else storeFind rest key := by
  unfold storeFind
  cases h : e.1 == key with
  | true => simp [List.find?_cons, h]
  | false => simp [List.find?_cons, h]

theorem storeFind_storeAssign (st : Store) (key : String)
    (v : ValueWithTimestamp) : storeFind (storeAssign st key v) key = some v := by
  induction st with
  | nil =>
    rw [storeAssign, storeFind_cons]
    simp
  | cons e rest ih =>
    rw [storeAssign]
    by_cases h : (e.1 == key) = true
    · rw [if_pos h, storeFind_cons]
      simp
    · rw [if_neg h, storeFind_cons, if_neg h]
      exact ih

theorem set_eq_of_found (st : Store) (key value : String) (ts : Nat)
    (cur : ValueWithTimestamp) (hf : storeFind st key = some cur) :
    KeyValueStore.set st key value ts =
      if ts ≥ cur.timestamp then (storeAssign st key ⟨value, ts⟩, true)
      else (st, false) := by
  unfold KeyValueStore.set
  rw [hf]

theorem set_eq_of_not_found (st : Store) (key value : String) (ts : Nat)
    (hf : storeFind st key = none) :
    KeyValueStore.set st key value ts = (storeAssign st key ⟨value, ts⟩, true) := by
  unfold KeyValueStore.set
  rw [hf]

theorem storeFind_set_self (st : Store) (key value : String) (timestamp : Nat)
    (h : (KeyValueStore.set st key value timestamp).2 = true) :
    storeFind (KeyValueStore.set st key value timestamp).1 key =
      some ⟨value, timestamp⟩ := by
  cases hf : storeFind st key with
  | none =>
    rw [set_eq_of_not_found st key value timestamp hf]
    exact storeFind_storeAssign st key _
  | some cur =>
    rw [set_eq_of_found st key value timestamp cur hf] at h ⊢
    by_cases ht : timestamp ≥ cur.timestamp
    · rw [if_pos ht]
      exact storeFind_storeAssign st key _
    · rw [if_neg ht] at h
      simp at h

/-- C6: KeyValueStore::set accepts exactly when the key is absent or the
write's timestamp is at least the stored record's (equal timestamps accept),
and an accepted set(k, v, t) followed by set(k, v', t') leaves the record
(v', t') when t' is at least t, and (v, t) otherwise. -/
theorem kv_set_lww_semantics (st : Store) (key value value' : String)
    (t t' : Nat) :
    ((KeyValueStore.set st key value t).2 = true ↔
      storeFind st key = none ∨
        ∃ cur, storeFind st key = some cur ∧ cur.timestamp ≤ t) ∧
    ((KeyValueStore.set st key value t).2 = true →
      storeFind
          (KeyValueStore.set (KeyValueStore.set st key value t).1 key value' t').1
          key =
        some (if t ≤ t' then ⟨value', t'⟩ else ⟨value, t⟩)) := by
  constructor
  · cases hf : storeFind st key with
    | none =>
      rw [set_eq_of_not_found st key value t hf]
      simp
    | some cur =>
      rw [set_eq_of_found st key value t cur hf]
      by_cases ht : t ≥ cur.timestamp
      · rw [if_pos ht]
        exact iff_of_true rfl (Or.inr ⟨cur, rfl, ht⟩)
      · rw [if_neg ht]
        simp only [Bool.false_eq_true, false_iff]
        push_neg
        refine ⟨by simp, fun c hc => ?_⟩
        cases hc
        omega
  · intro h
    have h1 := storeFind_set_self st key value t h
    rw [set_eq_of_found (KeyValueStore.set st key value t).1 key value' t' _ h1]
    by_cases ht : t ≤ t'
    · rw [if_pos (show t' ≥ (⟨value, t⟩ : ValueWithTimestamp).timestamp from ht),
          if_pos ht]
      exact storeFind_storeAssign _ key _
    · rw [if_neg (show ¬ t' ≥ (⟨value, t⟩ : ValueWithTimestamp).timestamp from ht),
          if_neg ht]
      exact h1

theorem kv_set_lww_semantics_witness :
    storeFind
        (KeyValueStore.set
          (KeyValueStore.set ([] : Store) "a" "x" 5).1 "a" "y" 3).1 "a" =
      some (if 5 ≤ 3 then ⟨"y", 3⟩ else ⟨"x", 5⟩) :=
  (kv_set_lww_semantics [] "a" "x" "y" 5 3).2 (by decide)

/-- C4, the code at the claim's input: on an empty local tree the live
header implementation of find_differences returns no keys at all, while the
stale out-of-line implementation returns every queried key as the claim
states. -/
theorem find_differences_empty_tree_divergence :
    MerkleTreeIndex.find_differences ⟨[]⟩ [⟨zeroHash, 0, []⟩] ["k"] = [] ∧
    findDifferencesCpp ⟨[]⟩ [⟨zeroHash, 0, []⟩] ["k"] = ["k"] := by
  constructor
  · rfl
  · rfl

/-!
## Request parsing (std::istringstream semantics)

Both process_command functions tokenize with istringstream extraction:
each >> skips whitespace and reads one whitespace-delimited token; an
extraction at end of input yields the empty string and puts the stream in a
failed state, after which further extractions and getline do nothing.
-/

/-- The istream whitespace set. -/
def isWS (c : Char) : Bool := c == ' ' || c == '\t' || c == '\n' || c == '\r'

/-- An input string stream: the unread characters and the fail flag. -/
structure SStream where
  rest : List Char
  failed : Bool
deriving DecidableEq

/-- One formatted extraction (stream >> token): skip whitespace, read up to
the next whitespace; at end of input the token is empty and the stream
fails; on an already-failed stream nothing happens. -/
def extractToken (s : SStream) : String × SStream :=
  if s.failed then ("", s)
  else
    let r := s.rest.dropWhile isWS
    match r with
    | [] => ("", ⟨[], true⟩)
    | _ :: _ =>
      (String.mk (r.takeWhile (fun c => !isWS c)), ⟨r.dropWhile (fun c => !isWS c), false⟩)

/-- std::getline on the stream: the characters up to the end of the line
(requests are single lines), or nothing on a failed stream. -/
def getlineRest (s : SStream) : List Char :=
  if s.failed then [] else s.rest.takeWhile (fun c => !(c == '\n'))

/-- The key-list splitting loop of the GET_PATHS handler
(node.hpp lines 127-139): segments delimited by a semicolon, with the
remainder after the last semicolon kept only when nonempty.  acc holds the
current segment reversed. -/
def splitSemiAux (acc : List Char) : List Char → List String
  | [] => if acc.isEmpty then [] else [String.mk acc.reverse]
  | c :: cs =>
    if c == ';' then String.mk acc.reverse :: splitSemiAux [] cs
    else splitSemiAux (c :: acc) cs

/-- Split a semicolon-delimited key list as the GET_PATHS handler does. -/
def splitSemi (cs : List Char) : List String := splitSemiAux [] cs

/-!
## Node (src/node.hpp)

A node owns the KeyValueStore and, once start_anti_entropy has run, a
MerkleTreeIndex registered with the store (set/del rebuild it from the
current snapshot).  process_command is the per-connection dispatcher; the
clock read current_timestamp() is a parameter of the model.  The command a
successful dispatch hands to propagate_update is returned alongside the
response instead of being written to a socket.
-/

/-- The node-visible state: store contents plus the registered Merkle index
(none before start_anti_entropy). -/
structure NodeState where
  store : Store
  index : Option MerkleTreeIndex
deriving DecidableEq

/-- kv_store_.set as called from the node: the store update plus, on
acceptance, the index rebuild from the fresh snapshot
(kv_store.hpp lines 26-37). -/
def nodeSet (ns : NodeState) (key value : String) (timestamp : Nat) :
    NodeState × Bool :=
  let r := KeyValueStore.set ns.store key value timestamp
  if r.2 then
    ({ store := r.1,
       index := ns.index.map (fun _ => MerkleTreeIndex.rebuild (get_all_key_value_data r.1)) },
      true)
  else ({ ns with store := r.1 }, false)

/-- kv_store_.del as called from the node (kv_store.hpp lines 39-50). -/
def nodeDel (ns : NodeState) (key : String) (timestamp : Nat) :
    NodeState × Bool :=
  let r := KeyValueStore.del ns.store key timestamp
  if r.2 then
    ({ store := r.1,
       index := ns.index.map (fun _ => MerkleTreeIndex.rebuild (get_all_key_value_data r.1)) },
      true)
  else ({ ns with store := r.1 }, false)

/-- The outcome of one Node::process_command dispatch: the response written
to the client, the state left behind, and the command handed to
propagate_update, if any. -/
structure NodeResult where
  response : String
  state : NodeState
  propagated : Option String
deriving DecidableEq

/-- The header tokens of a request as Node::process_command reads them
(node.hpp lines 75-86): the first token; for PROPAGATE the next three are
action, key, value, otherwise the first token is the action and the next
two are key and value.  Returns (is_propagated, action, key, value, stream
after the header reads). -/
def parseHeader (command : String) : Bool × String × String × String × SStream :=
  let s0 : SStream := ⟨command.data, false⟩
  let p1 := extractToken s0
  if p1.1 == "PROPAGATE" then
    let p2 := extractToken p1.2
    let p3 := extractToken p2.2
    let p4 := extractToken p3.2
    (true, p2.1, p3.1, p4.1, p4.2)
  else
    let p2 := extractToken p1.2
    let p3 := extractToken p2.2
    (false, p1.1, p2.1, p3.1, p3.2)

/-- The key list of a GET_PATHS request as the handler parses it
(node.hpp lines 122-139): getline what remains after the header reads, then
split on semicolons. -/
def parsedGetPathsKeys (command : String) : List String :=
  splitSemi (getlineRest (parseHeader command).2.2.2.2)

/-- The (key, path) pairing the GET_PATHS handler responds with
(node.hpp lines 144-156): the i-th parsed key against the i-th entry of the
compacted path list, up to the shorter length. -/
def getPathsPairs (idx : MerkleTreeIndex) (command : String) :
    List (String × MerklePath) :=
  let keys := parsedGetPathsKeys command
  keys.zip (idx.get_paths keys)

/-- A byte as two lowercase hex characters (setw(2) setfill zero hex). -/
def byteHex (b : Byte) : List Char :=
  let digit := fun n => if n < 10 then Char.ofNat (48 + n) else Char.ofNat (87 + n)
  [digit (b / 16 % 16), digit (b % 16)]

/-- A byte sequence as its lowercase hex string. -/
def bytesToHex (bs : List Byte) : String := String.mk ((bs.map byteHex).flatten)

/-- Node::process_command (node.hpp lines 73-162).  now is the value
current_timestamp() would return during this dispatch. -/
def nodeProcessCommand (ns : NodeState) (now : Nat) (command : String) :
    NodeResult :=
  let h := parseHeader command
  let isProp := h.1
  let action := h.2.1
  let key := h.2.2.1
  let value := h.2.2.2.1
  if action == "GET" then
    { response := KeyValueStore.get ns.store key, state := ns, propagated := none }
  else if action == "SET" then
    let r := nodeSet ns key value now
    { response := "OK", state := r.1,
      propagated :=
        if isProp then none
        else some ("PROPAGATE SET " ++ key ++ " " ++ value ++ " " ++ toString now) }
  else if action == "DEL" then
    let r := nodeDel ns key now
    { response := "OK", state := r.1,
      propagated :=
        if isProp then none
        else some ("PROPAGATE DEL " ++ key ++ " " ++ value ++ " " ++ toString now) }
  else if action == "GET_ALL" then
    { response :=
        String.join ((get_all_keys_with_timestamps ns.store).map
          (fun e => e.1 ++ ":" ++ toString e.2 ++ ";")),
      state := ns, propagated := none }
  else if action == "GET_MERKLE_ROOT" then
    match ns.index with
    | some idx =>
      { response := bytesToHex idx.get_root_hash, state := ns, propagated := none }
    | none => { response := "EMPTY", state := ns, propagated := none }
  else if action == "GET_PATHS" then
    match ns.index with
    | none => { response := "EMPTY", state := ns, propagated := none }
    | some idx =>
      { response :=
          String.join ((getPathsPairs idx command).map
            (fun pk => pk.1 ++ "," ++ bytesToHex (serializePath pk.2) ++ ";")),
        state := ns, propagated := none }
  else
    { response := "Invalid command", state := ns, propagated := none }

/-- KeyValueStore::process_command (kv_store.hpp lines 74-100): the store's
own dispatcher with its error strings.  now is the value the timestamp read
would produce.  Returns the response and the store left behind. -/
def kvProcessCommand (st : Store) (now : Nat) (command : String) :
    String × Store :=
  let s0 : SStream := ⟨command.data, false⟩
  let p1 := extractToken s0
  let p2 := extractToken p1.2
  let p3 := extractToken p2.2
  let action := p1.1
  let key := p2.1
  let value := p3.1
  if action == "GET" then (KeyValueStore.get st key, st)
  else if action == "SET" then
    let r := KeyValueStore.set st key value now
    (if r.2 then "OK" else "ERROR: Outdated timestamp", r.1)
  else if action == "DEL" then
    let r := KeyValueStore.del st key now
    (if r.2 then "OK" else "ERROR: Key not found or outdated timestamp", r.1)
  else if action == "GET_ALL" then
    (String.join ((get_all_key_value_data st).map
      (fun e => e.1 ++ ":" ++ toString e.2.2 ++ ";")), st)
  else ("ERROR: Invalid command", st)

/-- C1, the code at the claim's input: a node with local clock 10 that
receives PROPAGATE SET k v 5 stores the record with timestamp 10 — the
handler never reads the wire-carried timestamp 5, it stamps the write with
its own clock (node.hpp lines 80-94). -/
theorem propagate_handler_uses_local_clock :
    (nodeProcessCommand ⟨[], none⟩ 10 "PROPAGATE SET k v 5").state.store =
        [("k", ⟨"v", 10⟩)] ∧
    (nodeProcessCommand ⟨[], none⟩ 10 "PROPAGATE SET k v 5").propagated = none ∧
    (10 : Nat) ≠ 5 := by
  decide

/-- C2, the code at the claim's input: a SET whose assigned timestamp 5 is
below the stored record's timestamp 10 is rejected by the store (the
contents do not change), yet the node still hands PROPAGATE SET k v1 5 to
propagate_update and answers OK — the propagate call is unconditional
(node.hpp lines 90-94). -/
theorem stale_write_rejected_but_still_propagated :
    (nodeProcessCommand ⟨[("k", ⟨"v0", 10⟩)], none⟩ 5 "SET k v1").state.store =
        [("k", ⟨"v0", 10⟩)] ∧
    (nodeProcessCommand ⟨[("k", ⟨"v0", 10⟩)], none⟩ 5 "SET k v1").propagated =
        some "PROPAGATE SET k v1 5" ∧
    (nodeProcessCommand ⟨[("k", ⟨"v0", 10⟩)], none⟩ 5 "SET k v1").response = "OK" := by
  decide

/-- C3, the code at the claim's input: the node's dispatcher answers OK for
a rejected SET and for a rejected DEL (it discards the store's boolean,
node.hpp lines 90-99), while the store's own dispatcher
KeyValueStore::process_command produces the documented error strings at the
same inputs (kv_store.hpp lines 81-90). -/
theorem node_response_ok_despite_rejection :
    (nodeProcessCommand ⟨[("k", ⟨"v0", 10⟩)], none⟩ 5 "SET k v1").response = "OK" ∧
    (kvProcessCommand [("k", ⟨"v0", 10⟩)] 5 "SET k v1").1 =
        "ERROR: Outdated timestamp" ∧
    (nodeProcessCommand ⟨[], none⟩ 5 "DEL nokey").response = "OK" ∧
    (kvProcessCommand ([] : Store) 5 "DEL nokey").1 =
        "ERROR: Key not found or outdated timestamp" := by
  decide

theorem keyToIndex_of_leaves_empty (st : MerkleTreeIndex)
    (h : st.leaves.isEmpty = true) (k : String) : st.keyToIndex k = none := by
  unfold MerkleTreeIndex.leaves at h
  unfold MerkleTreeIndex.keyToIndex
  cases he : st.entries with
  | nil => rfl
  | cons e rest => rw [he] at h; simp at h

theorem filterMap_map_eq_filter_map (leaves : List Hash)
    (f : String → Option Nat) (keys : List String) :
    keys.filterMap (fun k => (f k).map (pathAt leaves)) =
      (keys.filter (fun k => (f k).isSome)).map
        (fun k => pathAt leaves ((f k).getD 0)) := by
  induction keys with
  | nil => rfl
  | cons k rest ih =>
    cases hf : f k with
    | none => simp [List.filterMap_cons, List.filter_cons, hf, ih]
    | some i => simp [List.filterMap_cons, List.filter_cons, hf, ih]

/-- C8: get_paths returns exactly one authentication path per requested key
that exists in the KeyIndex — the path of that key's leaf position — in the
same relative order as the input list, and keys absent from the KeyIndex
are omitted. -/
theorem get_paths_one_path_per_known_key (st : MerkleTreeIndex)
    (keys : List String) :
    st.get_paths keys =
      (keys.filter (fun k => (st.keyToIndex k).isSome)).map
        (fun k => pathAt st.leaves ((st.keyToIndex k).getD 0)) := by
  unfold MerkleTreeIndex.get_paths
  by_cases he : st.leaves.isEmpty = true
  · rw [if_pos he]
    have hnone := keyToIndex_of_leaves_empty st he
    have : keys.filter (fun k => (st.keyToIndex k).isSome) = [] := by
      rw [List.filter_eq_nil_iff]
      intro k _
      rw [hnone k]
      simp
    rw [this]
    rfl
  · rw [if_neg he]
    exact filterMap_map_eq_filter_map st.leaves st.keyToIndex keys

theorem zip_self_map {α β : Type} (l : List α) (f : α → β) :
    l.zip (l.map f) = l.map (fun a => (a, f a)) := by
  induction l with
  | nil => rfl
  | cons a rest ih => simp [ih]

/-- The index and command exhibiting the positional mispairing of the
GET_PATHS handler: the store knows y (leaf 0) and z (leaf 1) and the
request asks for an unknown key ahead of them. -/
def mispairedIndex : MerkleTreeIndex := ⟨[("y", "1", 1), ("z", "2", 2)]⟩

/-- A GET_PATHS request whose parsed key list is [" q", "y", "z"]: the
header reads consume the first two tokens after the verb, getline returns
the remainder " q;y;z" of the line, and the semicolon split yields an
unknown first key. -/
def mispairedCommand : String := "GET_PATHS a b q;y;z"

/-- C10: the GET_PATHS handler pairs the i-th parsed key with the i-th
entry of the compacted path list.  When every parsed key is in the KeyIndex
the compaction drops nothing and each key is paired with its own path;
for the request mispairedCommand against mispairedIndex the unknown first
key shifts the list, so the known key y (leaf 0) is paired with the
authentication path of leaf 1, which belongs to z. -/
theorem get_paths_pairing_positional :
    (∀ (idx : MerkleTreeIndex) (cmd : String),
      (∀ k ∈ parsedGetPathsKeys cmd, (idx.keyToIndex k).isSome = true) →
      getPathsPairs idx cmd =
        (parsedGetPathsKeys cmd).map
          (fun k => (k, pathAt idx.leaves ((idx.keyToIndex k).getD 0)))) ∧
    (getPathsPairs mispairedIndex mispairedCommand =
        [(" q", pathAt mispairedIndex.leaves 0),
         ("y", pathAt mispairedIndex.leaves 1)] ∧
      mispairedIndex.keyToIndex "y" = some 0 ∧
      mispairedIndex.keyToIndex "z" = some 1 ∧
      (pathAt mispairedIndex.leaves 1).leafIndex = 1) := by
  constructor
  · intro idx cmd hall
    show (parsedGetPathsKeys cmd).zip (idx.get_paths (parsedGetPathsKeys cmd)) = _
    rw [get_paths_one_path_per_known_key]
    have hfilter : (parsedGetPathsKeys cmd).filter
        (fun k => (idx.keyToIndex k).isSome) = parsedGetPathsKeys cmd :=
      List.filter_eq_self.mpr hall
    rw [hfilter, zip_self_map]
  · exact ⟨rfl, rfl, rfl, rfl⟩

theorem get_paths_pairing_positional_witness :
    getPathsPairs ⟨[(" a", "1", 1)]⟩ "GET_PATHS x y a" =
      (parsedGetPathsKeys "GET_PATHS x y a").map
        (fun k => (k, pathAt (MerkleTreeIndex.leaves ⟨[(" a", "1", 1)]⟩)
          ((MerkleTreeIndex.keyToIndex ⟨[(" a", "1", 1)]⟩ k).getD 0))) :=
  get_paths_pairing_positional.1 ⟨[(" a", "1", 1)]⟩ "GET_PATHS x y a" (by decide)

/-!
## Step 4 of the Merkle anti-entropy cycle
(src/anti_entropy/anti_entropy_manager.hpp lines 90-104 and 344-363)
-/

/-- The candidate key set of step 4: the keys of the local store's
snapshot, in snapshot order (anti_entropy_manager.hpp lines 93-98). -/
def merkleStep4KeyList (store : Store) : List String :=
  (get_all_keys_with_timestamps store).map Prod.fst

/-- The payload of a GET_PATHS request: each key followed by a semicolon
(anti_entropy_manager.hpp lines 357-360). -/
def joinSemiKeys (keys : List String) : List Char :=
  (keys.map (fun k => k.data ++ [';'])).flatten

/-- request_peer_paths builds the request GET_PATHS followed by the
semicolon-joined keys (anti_entropy_manager.hpp lines 357-360). -/
def buildGetPathsRequest (keys : List String) : String :=
  "GET_PATHS " ++ String.mk (joinSemiKeys keys)

/-- The GET_PATHS request that step 4 sends to the peer. -/
def merkleStep4Request (store : Store) : String :=
  buildGetPathsRequest (merkleStep4KeyList store)

theorem splitSemiAux_append : ∀ ks acc rest : List Char, ';' ∉ ks →
    splitSemiAux acc (ks ++ ';' :: rest) =
      String.mk (acc.reverse ++ ks) :: splitSemiAux [] rest := by
  intro ks
  induction ks with
  | nil => intro acc rest h; simp [splitSemiAux]
  | cons c cs ih =>
    intro acc rest h
    have hc : ¬(c == ';') = true := by
      simp only [beq_iff_eq]
      intro hcc
      exact h (hcc ▸ List.mem_cons_self c cs)
    have hcs : ';' ∉ cs := fun hx => h (List.mem_cons_of_mem c hx)
    simp only [List.cons_append, splitSemiAux, if_neg hc, List.append_eq]
    rw [ih (c :: acc) rest hcs]
    simp

theorem splitSemi_joinSemiKeys (keys : List String)
    (h : ∀ k ∈ keys, ';' ∉ k.data) :
    splitSemi (joinSemiKeys keys) = keys := by
  induction keys with
  | nil => rfl
  | cons k rest ih =>
    have hk : ';' ∉ k.data := h k (List.mem_cons_self k rest)
    have hrest : ∀ x ∈ rest, ';' ∉ x.data :=
      fun x hx => h x (List.mem_cons_of_mem k hx)
    unfold splitSemi joinSemiKeys
    simp only [List.map_cons, List.flatten_cons, List.append_assoc,
      List.singleton_append]
    rw [splitSemiAux_append k.data [] _ hk]
    unfold splitSemi joinSemiKeys at ih
    rw [ih hrest]
    simp

/-- C5: in step 4 of a Merkle anti-entropy cycle, the initiator requests
the peer's authentication paths for exactly the key set of its own local
store's snapshot: the key list it sends is the snapshot's keys, the request
is GET_PATHS followed by those keys semicolon-joined, and splitting that
payload recovers exactly the snapshot's keys. -/
theorem merkle_step4_requests_exactly_local_keys (store : Store)
    (h : ∀ k ∈ merkleStep4KeyList store, ';' ∉ k.data) :
    merkleStep4KeyList store = store.map Prod.fst ∧
    merkleStep4Request store =
      "GET_PATHS " ++ String.mk (joinSemiKeys (store.map Prod.fst)) ∧
    splitSemi (joinSemiKeys (merkleStep4KeyList store)) = store.map Prod.fst := by
  have h1 : merkleStep4KeyList store = store.map Prod.fst := by
    unfold merkleStep4KeyList get_all_keys_with_timestamps
    rw [List.map_map]
    rfl
  refine ⟨h1, ?_, ?_⟩
  · unfold merkleStep4Request buildGetPathsRequest
    rw [h1]
  · rw [splitSemi_joinSemiKeys _ h, h1]

theorem merkle_step4_requests_exactly_local_keys_witness :
    merkleStep4KeyList [("a", ⟨"1", 1⟩), ("b", ⟨"2", 2⟩)] =
        ([("a", ⟨"1", 1⟩), ("b", ⟨"2", 2⟩)] : Store).map Prod.fst ∧
    merkleStep4Request [("a", ⟨"1", 1⟩), ("b", ⟨"2", 2⟩)] =
      "GET_PATHS " ++
        String.mk (joinSemiKeys (([("a", ⟨"1", 1⟩), ("b", ⟨"2", 2⟩)] : Store).map Prod.fst)) ∧
    splitSemi (joinSemiKeys (merkleStep4KeyList [("a", ⟨"1", 1⟩), ("b", ⟨"2", 2⟩)])) =
      ([("a", ⟨"1", 1⟩), ("b", ⟨"2", 2⟩)] : Store).map Prod.fst :=
  merkle_step4_requests_exactly_local_keys
    [("a", ⟨"1", 1⟩), ("b", ⟨"2", 2⟩)] (by decide)

/-!
## Emptiness and the zero root

The provable fragment of the empty-iff-zero-root equivalence: a rebuild
from the store's snapshot has no leaves exactly when the store is empty,
and an empty tree reports the zero root.  The converse — that a nonempty
tree's root is never the all-zero digest — is the nonexistence of an
all-zero sha-256 compression output and is left open.
-/

theorem rebuild_leaves_empty_iff (st : Store) :
    (MerkleTreeIndex.rebuild (get_all_key_value_data st)).leaves = [] ↔ st = [] := by
  unfold MerkleTreeIndex.rebuild MerkleTreeIndex.leaves get_all_key_value_data
  simp

theorem get_root_hash_zero_of_no_leaves (st : MerkleTreeIndex)
    (h : st.leaves = []) : st.get_root_hash = zeroHash := by
  unfold MerkleTreeIndex.get_root_hash
  rw [h]
  rfl

end DKV
